import Mathlib

/-
Formal model of the Project_V multi-track audio editor core
(App component in src/unnamed/part_000, clip drag/trim algorithms in
src/components/AudioClipView.tsx, WAV serialization in src/unnamed/part_005).

Modelling conventions:
* JavaScript floating-point seconds are modelled as exact rationals (ℚ).
* `crypto.randomUUID()` is modelled by a freshness counter `nextId`; each
  generated id is the current counter value and the counter is bumped.
* A decoded `AudioBuffer` is relevant to the model only through its duration,
  so the source registry (`soundSources`) is a list of durations, and
  `AudioClip.sourceId` is an index into that list.  The registry is
  append-only in the source code, so indices stay stable.
* The live Web-Audio handles stored on clips (`clip.sourceNode`,
  `clip.clipGainNode`) are modelled by the side list `liveClips`: the ids of
  clips whose buffer-source node has been started and not stopped.
  `pauseAudio` stops exactly the nodes it can reach through the current
  track/clip model, mirroring `tracks.forEach(track => track.clips.forEach ...)`.
* Fields with no behavioural content for the verified claims (clip/track
  names, colors, panner/gain node objects, track height, UI flags) are
  omitted.  The audio-graph routing of a started source
  (clip gain -> track gain -> panner -> destination) is represented by the
  `trackId`, `sourceId` and `clipGain` fields of a start command.
-/

/-- Model of `AudioClip` from src/unnamed/part_004 (types), without the
live-node pointers (see `liveClips`) and the inert `name` field. -/
structure AudioClip where
  id : ℕ
  sourceId : ℕ
  trackId : ℕ
  startTime : ℚ
  offset : ℚ
  duration : ℚ
  gain : ℚ
deriving Repr, DecidableEq

/-- Model of `Track`: its id and clip list (name/color/panner/gain/height
omitted). -/
structure Track where
  id : ℕ
  clips : List AudioClip
deriving Repr, DecidableEq

/-- Model of the App component state: React state plus the refs
(`startOffsetRef` = startOffset, `startTimeRef` = startClockTime). -/
structure AppState where
  soundSources : List ℚ
  tracks : List Track
  isPlaying : Bool
  startOffset : ℚ
  startClockTime : ℚ
  currentTime : ℚ
  globalDuration : ℚ
  liveClips : List ℕ
  selectedClipId : Option ℕ
  clipboard : Option AudioClip
  nextId : ℕ
deriving Repr, DecidableEq

/-- Initial state of the App component (all useState initialisers). -/
def initState : AppState :=
  { soundSources := [], tracks := [], isPlaying := false, startOffset := 0,
    startClockTime := 0, currentTime := 0, globalDuration := 0,
    liveClips := [], selectedClipId := none, clipboard := none, nextId := 0 }

/-- All clips of all tracks, in track order (`tracks.flatMap(t => t.clips)`). -/
def allClips (s : AppState) : List AudioClip := s.tracks.flatMap Track.clips

/-- Model of `updateGlobalDuration` (part_000 lines 44-47):
`Math.max(0, ...tracks.flatMap(t => t.clips).map(c => c.startTime + c.duration))`. -/
def updateGlobalDuration (tracks : List Track) : ℚ :=
  ((tracks.flatMap Track.clips).map (fun c => c.startTime + c.duration)).foldl max 0

/-- Model of `tracks.flatMap(t => t.clips).find(c => c.id === id)`. -/
def findClip (s : AppState) (cid : ℕ) : Option AudioClip :=
  (allClips s).find? (fun c => c.id == cid)

/-- Ids of the clips currently present in the model. -/
def modelClipIds (s : AppState) : List ℕ := (allClips s).map AudioClip.id

/-- Model of one iteration of the `handleFiles` loop (part_000 lines 49-103):
decode a file of duration `bufferDuration`, register the source, and create a
new track holding one full-length clip (`startTime = 0`, `offset = 0`,
`duration = audioBuffer.duration`, `gain = 1.0`), then recompute
GlobalDuration. -/
def importFile (bufferDuration : ℚ) (s : AppState) : AppState :=
  let clip : AudioClip :=
    { id := s.nextId, sourceId := s.soundSources.length, trackId := s.nextId + 1,
      startTime := 0, offset := 0, duration := bufferDuration, gain := 1 }
  let track : Track := { id := s.nextId + 1, clips := [clip] }
  let newTracks := s.tracks ++ [track]
  { s with soundSources := s.soundSources ++ [bufferDuration],
           tracks := newTracks,
           globalDuration := updateGlobalDuration newTracks,
           nextId := s.nextId + 2 }

/-- Move branch of `handlePointerMove` (AudioClipView.tsx line 80):
`newClip.startTime = Math.max(0, originalClip.startTime + dTime)`. -/
def moveClip (c : AudioClip) (dTime : ℚ) : AudioClip :=
  { c with startTime := max 0 (c.startTime + dTime) }

/-- trimStart branch of `handlePointerMove` (AudioClipView.tsx lines 81-86):
`maxTrim = duration - 0.1`,
`actualDTime = Math.max(-offset, Math.min(dTime, maxTrim))`, then
`startTime += actualDTime; offset += actualDTime; duration -= actualDTime`. -/
def trimStart (c : AudioClip) (dTime : ℚ) : AudioClip :=
  let maxTrim := c.duration - 1/10
  let actualDTime := max (-c.offset) (min dTime maxTrim)
  { c with startTime := c.startTime + actualDTime,
           offset := c.offset + actualDTime,
           duration := c.duration - actualDTime }

/-- trimEnd branch of `handlePointerMove` (AudioClipView.tsx lines 87-91):
`maxTrim = duration - 0.1`,
`actualDTime = Math.max(-maxTrim, Math.min(dTime, sourceBufferDuration - offset - duration))`,
then `duration += actualDTime`. -/
def trimEnd (sourceBufferDuration : ℚ) (c : AudioClip) (dTime : ℚ) : AudioClip :=
  let maxTrim := c.duration - 1/10
  let actualDTime := max (-maxTrim) (min dTime (sourceBufferDuration - c.offset - c.duration))
  { c with duration := c.duration + actualDTime }

/-- Gain branch of `handlePointerMove` (AudioClipView.tsx lines 92-98):
`newClip.gain = Math.max(0, Math.min(1.5, originalClip.gain + gainChange))`,
with the pixel-to-gain conversion abstracted into the delta `dGain`. -/
def adjustGain (c : AudioClip) (dGain : ℚ) : AudioClip :=
  { c with gain := max 0 (min (3/2) (c.gain + dGain)) }

/-- Model of `handleUpdateClip` (part_000 lines 268-291): replace the clip with
the updated one inside its track, then recompute GlobalDuration. -/
def handleUpdateClip (updatedClip : AudioClip) (s : AppState) : AppState :=
  let newTracks := s.tracks.map (fun track =>
    if track.id == updatedClip.trackId then
      { track with clips := track.clips.map (fun clip =>
          if clip.id == updatedClip.id then updatedClip else clip) }
    else track)
  { s with tracks := newTracks, globalDuration := updateGlobalDuration newTracks }

/-- Public move operation: the clip view computes `moveClip` from the current
clip and submits it through `onUpdate` = `handleUpdateClip`. -/
def applyMoveClip (cid : ℕ) (dTime : ℚ) (s : AppState) : AppState :=
  match findClip s cid with
  | none => s
  | some c => handleUpdateClip (moveClip c dTime) s

/-- Public trim-start operation, routed through `handleUpdateClip`. -/
def applyTrimStart (cid : ℕ) (dTime : ℚ) (s : AppState) : AppState :=
  match findClip s cid with
  | none => s
  | some c => handleUpdateClip (trimStart c dTime) s

/-- Public trim-end operation; `sourceBufferDurationRef` is the duration of the
clip's source buffer. -/
def applyTrimEnd (cid : ℕ) (dTime : ℚ) (s : AppState) : AppState :=
  match findClip s cid with
  | none => s
  | some c => handleUpdateClip (trimEnd (s.soundSources.getD c.sourceId 0) c dTime) s

/-- Public gain-drag operation, routed through `handleUpdateClip`. -/
def applyAdjustGain (cid : ℕ) (dGain : ℚ) (s : AppState) : AppState :=
  match findClip s cid with
  | none => s
  | some c => handleUpdateClip (adjustGain c dGain) s

/-- First half of a slice (part_000 lines 315-318): keeps id, startTime and
offset, `duration = sliceTimeInClip = t - clip.startTime`. -/
def sliceFirst (clip : AudioClip) (t : ℚ) : AudioClip :=
  { clip with duration := t - clip.startTime }

/-- Second half of a slice (part_000 lines 320-326): fresh id,
`startTime = clip.startTime + firstPartDuration`,
`offset = clip.offset + firstPartDuration`,
`duration = clip.duration - sliceTimeInClip`. -/
def sliceSecond (newId : ℕ) (clip : AudioClip) (t : ℚ) : AudioClip :=
  { clip with id := newId,
              startTime := clip.startTime + (t - clip.startTime),
              offset := clip.offset + (t - clip.startTime),
              duration := clip.duration - (t - clip.startTime) }

/-- Body of the per-track part of `handleSliceClip` (part_000 lines 307-331):
`findIndex` the selected clip in the clip list; if found, check the 0.01s
margins and splice `[first, second]` in place of the clip; if found but the
margins fail, the track is left alone (and the outer loop moves on). -/
def trySliceClips (t : ℚ) (newId cid : ℕ) : List AudioClip → Option (List AudioClip)
  | [] => none
  | clip :: rest =>
    if clip.id == cid then
      let sliceTimeInClip := t - clip.startTime
      if 1/100 < sliceTimeInClip ∧ sliceTimeInClip < clip.duration - 1/100 then
        some (sliceFirst clip t :: sliceSecond newId clip t :: rest)
      else none
    else (trySliceClips t newId cid rest).map (fun cs => clip :: cs)

/-- The `for (const track of newTracks)` loop of `handleSliceClip`: the first
track whose clip list slices successfully is replaced and the loop breaks
(`found = true`). -/
def sliceTracks (t : ℚ) (newId cid : ℕ) : List Track → List Track × Bool
  | [] => ([], false)
  | track :: rest =>
    match trySliceClips t newId cid track.clips with
    | some cs => ({ track with clips := cs } :: rest, true)
    | none =>
      let r := sliceTracks t newId cid rest
      (track :: r.1, r.2)

/-- Model of `handleSliceClip` (part_000 lines 299-338): no-op unless a clip is
selected and `currentTime > 0`; recomputes GlobalDuration only when a slice
happened; always clears the selection afterwards (the early return skips
that). -/
def handleSliceClip (s : AppState) : AppState :=
  match s.selectedClipId with
  | none => s
  | some cid =>
    if s.currentTime ≤ 0 then s
    else
      let r := sliceTracks s.currentTime s.nextId cid s.tracks
      { s with tracks := r.1,
               globalDuration := if r.2 then updateGlobalDuration r.1 else s.globalDuration,
               nextId := if r.2 then s.nextId + 1 else s.nextId,
               selectedClipId := none }

/-- Command sent to the synthesis backend by `sourceNode.start(when, offset, duration)`
(part_000 line 132), together with the graph routing data (per-clip gain value,
track and source identity). -/
structure StartCmd where
  clipId : ℕ
  trackId : ℕ
  sourceId : ℕ
  whenTime : ℚ
  readOffset : ℚ
  readDuration : ℚ
  clipGain : ℚ
deriving Repr, DecidableEq

/-- Per-clip body of `playAudio` (part_000 lines 115-136): the overlap guard
`clipEndTime > playbackStartTime && clip.startTime < globalDuration`, the
source lookup, the audible sub-window arithmetic and the `duration > 0` start
guard. -/
def clipStartCmd (numSources : ℕ) (globalDuration playbackStartTime clockNow : ℚ)
    (trackId : ℕ) (clip : AudioClip) : Option StartCmd :=
  if playbackStartTime < clip.startTime + clip.duration ∧ clip.startTime < globalDuration then
    if clip.sourceId < numSources then
      let w := clockNow + max 0 (clip.startTime - playbackStartTime)
      let o := clip.offset + max 0 (playbackStartTime - clip.startTime)
      let d := clip.duration - max 0 (playbackStartTime - clip.startTime)
      if 0 < d then
        some { clipId := clip.id, trackId := trackId, sourceId := clip.sourceId,
               whenTime := w, readOffset := o, readDuration := d, clipGain := clip.gain }
      else none
    else none
  else none

/-- All backend start commands issued by one `playAudio` call. -/
def startCommands (clockNow : ℚ) (s : AppState) : List StartCmd :=
  s.tracks.flatMap (fun track =>
    track.clips.filterMap
      (clipStartCmd s.soundSources.length s.globalDuration s.startOffset clockNow track.id))

/-- Model of `playAudio` (part_000 lines 105-143): no-op when already playing
or when there are no tracks (the `!audioContextRef.current` guard can only
fire before the first import, when `tracks` is empty anyway); otherwise record
the clock, start the audible clips and transition to Playing. -/
def playAudio (now : ℚ) (s : AppState) : AppState :=
  if s.isPlaying || s.tracks.isEmpty then s
  else
    { s with startClockTime := now, isPlaying := true,
             liveClips := s.liveClips ++ (startCommands now s).map StartCmd.clipId }

/-- Model of `pauseAudio` (part_000 lines 145-165): accumulate the elapsed time
into `startOffset` and stop every live node reachable through the current
model (`tracks.forEach(track => track.clips.forEach ...)`); nodes of clips that
were removed from the model are not reachable and stay live. -/
def pauseAudio (now : ℚ) (s : AppState) : AppState :=
  if s.isPlaying then
    { s with startOffset := s.startOffset + (now - s.startClockTime),
             liveClips := s.liveClips.filter (fun i => !(modelClipIds s).contains i),
             isPlaying := false }
  else s

/-- Model of one `animate` tick of the playback effect (part_000 lines
167-188): while playing, compute the position; at or past GlobalDuration,
pause and rewind to 0; otherwise publish the position. -/
def animate (now : ℚ) (s : AppState) : AppState :=
  if s.isPlaying then
    let newCurrentTime := s.startOffset + (now - s.startClockTime)
    if s.globalDuration ≤ newCurrentTime then
      { pauseAudio now s with startOffset := 0, currentTime := 0 }
    else
      { s with currentTime := newCurrentTime }
  else s

/-- Model of `handleSeek` (part_000 lines 190-199): pause if playing, clamp
the target into `[0, globalDuration]`, set both position fields, then call
`playAudio()` if it was playing.  That `playAudio` is the render-time
useCallback closure, so the `isPlaying` its guard reads is the value captured
before this handler ran — `setIsPlaying(false)` inside `pauseAudio` cannot
change the already-captured binding within the same synchronous handler.
When the transport was playing, the captured value is still `true`, the guard
fires, and the call returns with no effect: seek-while-playing stops the
sounding nodes and sets the position but never restarts playback.  The inner
conditional below is `playAudio`'s body with the guard's stale captured flag
(`s.isPlaying`, the pre-seek value) spelled out. -/
def handleSeek (now newTime : ℚ) (s : AppState) : AppState :=
  let s1 := if s.isPlaying then pauseAudio now s else s
  let clampedTime := max 0 (min newTime s.globalDuration)
  let s2 := { s1 with startOffset := clampedTime, currentTime := clampedTime }
  if s.isPlaying then
    (if s.isPlaying || s2.tracks.isEmpty then s2
     else { s2 with startClockTime := now, isPlaying := true,
                    liveClips := s2.liveClips ++ (startCommands now s2).map StartCmd.clipId })
  else s2

/-- Transport position: `startOffset + (now - startClockTime)` while playing
(the computation of the `animate` tick), the last published `currentTime`
otherwise. -/
def transportPosition (now : ℚ) (s : AppState) : ℚ :=
  if s.isPlaying then s.startOffset + (now - s.startClockTime) else s.currentTime

/-- Model of `handleDeleteTrack` (part_000 lines 340-347): pause when playing,
drop the track, recompute GlobalDuration, and reset the transport position
to 0. -/
def handleDeleteTrack (now : ℚ) (trackId : ℕ) (s : AppState) : AppState :=
  let s1 := if s.isPlaying then pauseAudio now s else s
  let newTracks := s1.tracks.filter (fun t => !(t.id == trackId))
  { s1 with tracks := newTracks,
            globalDuration := updateGlobalDuration newTracks,
            startOffset := 0, currentTime := 0 }

/-- Model of `handleDeleteClip` (part_000 lines 349-367): filter the clip out
of its track, recompute GlobalDuration, clear the selection.  No live node is
stopped and the transport position is untouched. -/
def handleDeleteClip (clipId : ℕ) (s : AppState) : AppState :=
  let newTracks := s.tracks.map (fun track =>
    if track.clips.any (fun c => c.id == clipId) then
      { track with clips := track.clips.filter (fun c => !(c.id == clipId)) }
    else track)
  { s with tracks := newTracks,
           globalDuration := updateGlobalDuration newTracks,
           selectedClipId := none }

/-- Model of `setSelectedClipId`. -/
def setSelectedClip (sel : Option ℕ) (s : AppState) : AppState :=
  { s with selectedClipId := sel }

/-- Model of the Ctrl-C handler (part_000 lines 378-383): snapshot the selected
clip by value into the clipboard. -/
def handleCopy (s : AppState) : AppState :=
  match s.selectedClipId with
  | none => s
  | some cid =>
    match findClip s cid with
    | none => s
    | some c => { s with clipboard := some c }

/-- The `newTracks.find(t => t.id === clipboard.trackId)` + `push` of the paste
handler: append the clip to the first track with the given id, if any. -/
def pushClipToTrack (trackId : ℕ) (c : AudioClip) : List Track → List Track
  | [] => []
  | track :: rest =>
    if track.id == trackId then { track with clips := track.clips ++ [c] } :: rest
    else track :: pushClipToTrack trackId c rest

/-- Model of the Ctrl-V handler (part_000 lines 384-403): clone the clipboard
clip with a fresh id at `startTime = currentTime` onto its original track (if
that track still exists), then recompute GlobalDuration. -/
def handlePaste (s : AppState) : AppState :=
  match s.clipboard with
  | none => s
  | some cb =>
    let newClip : AudioClip := { cb with id := s.nextId, startTime := s.currentTime }
    let newTracks := pushClipToTrack cb.trackId newClip s.tracks
    { s with tracks := newTracks,
             globalDuration := updateGlobalDuration newTracks,
             nextId := s.nextId + 1 }

/-- States reachable from the initial state by the public operations.  Decoded
audio buffers always have positive duration, hence the `0 < d` hypothesis on
import. -/
inductive Reachable : AppState → Prop
  | init : Reachable initState
  | ofImport {s} (d : ℚ) (hd : 0 < d) (h : Reachable s) : Reachable (importFile d s)
  | ofMove {s} (cid : ℕ) (dt : ℚ) (h : Reachable s) : Reachable (applyMoveClip cid dt s)
  | ofTrimStart {s} (cid : ℕ) (dt : ℚ) (h : Reachable s) : Reachable (applyTrimStart cid dt s)
  | ofTrimEnd {s} (cid : ℕ) (dt : ℚ) (h : Reachable s) : Reachable (applyTrimEnd cid dt s)
  | ofAdjustGain {s} (cid : ℕ) (dg : ℚ) (h : Reachable s) : Reachable (applyAdjustGain cid dg s)
  | ofSelect {s} (sel : Option ℕ) (h : Reachable s) : Reachable (setSelectedClip sel s)
  | ofSlice {s} (h : Reachable s) : Reachable (handleSliceClip s)
  | ofCopy {s} (h : Reachable s) : Reachable (handleCopy s)
  | ofPaste {s} (h : Reachable s) : Reachable (handlePaste s)
  | ofDeleteClip {s} (cid : ℕ) (h : Reachable s) : Reachable (handleDeleteClip cid s)
  | ofDeleteTrack {s} (now : ℚ) (tid : ℕ) (h : Reachable s) : Reachable (handleDeleteTrack now tid s)
  | ofPlay {s} (now : ℚ) (h : Reachable s) : Reachable (playAudio now s)
  | ofPause {s} (now : ℚ) (h : Reachable s) : Reachable (pauseAudio now s)
  | ofSeek {s} (now t : ℚ) (h : Reachable s) : Reachable (handleSeek now t s)
  | ofTick {s} (now : ℚ) (h : Reachable s) : Reachable (animate now s)

/-- Little-endian bytes of `setUint16(pos, n, true)`. -/
def u16le (n : ℕ) : List ℕ := [n % 256, n / 256 % 256]

/-- Little-endian bytes of `setUint32(pos, n, true)`. -/
def u32le (n : ℕ) : List ℕ :=
  [n % 256, n / 256 % 256, n / 65536 % 256, n / 16777216 % 256]

/-- Truncation toward zero, as JavaScript's ToInteger conversion does before a
`setInt16` store. -/
def ratTrunc (q : ℚ) : ℤ := if q < 0 then -⌊-q⌋ else ⌊q⌋

/-- Sample conversion of `bufferToWav` (part_005 lines 75-76):
`sample = Math.max(-1, Math.min(1, s)); sample < 0 ? sample * 0x8000 : sample * 0x7FFF`. -/
def sampleToInt16 (x : ℚ) : ℤ :=
  let clamped := max (-1) (min 1 x)
  if clamped < 0 then ratTrunc (clamped * 32768) else ratTrunc (clamped * 32767)

/-- Little-endian two's-complement bytes of `setInt16(pos, v, true)`. -/
def int16le (v : ℤ) : List ℕ :=
  let m := (v % 65536).toNat
  [m % 256, m / 256]

/-- Header part of `bufferToWav` (part_005 lines 55-67), field by field in
source order, with `bufferLength = numSamples * numChannels * 2 + 44`; the
declared data size is `bufferLength - pos - 4` with `pos = 40`, i.e.
`bufferLength - 44`. -/
def wavHeaderBytes (numChannels numSamples sampleRate : ℕ) : List ℕ :=
  let bufferLength := numSamples * numChannels * 2 + 44
  u32le 0x46464952 ++ u32le (bufferLength - 8) ++ u32le 0x45564157 ++
  u32le 0x20746d66 ++ u32le 16 ++ u16le 1 ++ u16le numChannels ++
  u32le sampleRate ++ u32le (sampleRate * 2 * numChannels) ++
  u16le (numChannels * 2) ++ u16le 16 ++ u32le 0x61746164 ++ u32le (bufferLength - 44)

/-- Data part of `bufferToWav` (part_005 lines 73-80): interleaved per-frame,
per-channel 16-bit samples. -/
def wavDataBytes (numChannels numSamples : ℕ) (channels : List (List ℚ)) : List ℕ :=
  (List.range numSamples).flatMap (fun i =>
    (List.range numChannels).flatMap (fun c =>
      int16le (sampleToInt16 ((channels.getD c []).getD i 0))))

/-- Model of `bufferToWav` (part_005 lines 36-83).  The rendered buffer is
given as channel count, frame count, sample rate and per-channel sample lists;
the result is the byte list of the produced Blob. -/
def bufferToWav (numChannels numSamples sampleRate : ℕ) (channels : List (List ℚ)) : List ℕ :=
  wavHeaderBytes numChannels numSamples sampleRate ++
    wavDataBytes numChannels numSamples channels

/-- Clip-level properties that hold in every reachable state (the provable
part of the spec's clip invariant). -/
def ClipOK (c : AudioClip) : Prop := 0 ≤ c.offset ∧ 0 < c.duration

/-- Induction invariant: every clip of the model and the clipboard snapshot
satisfy `ClipOK`. -/
def StateOK (s : AppState) : Prop :=
  (∀ c ∈ allClips s, ClipOK c) ∧ ∀ c, s.clipboard = some c → ClipOK c

/-- Reachable state containing a clip of duration 1/20 < MIN_CLIP_LEN: import a
1s file, seek to 0.05s, select the clip, slice. -/
def c1State : AppState :=
  handleSliceClip (setSelectedClip (some 0) (handleSeek 0 (1/20) (importFile 1 initState)))

/-- Reachable state holding a selected clip with `startTime = -1` while the
transport sits at 0: import 2s, slice at 1s, drag the second half to the far
left, trim its start by a large negative delta, seek to 0, select it. -/
def c2State : AppState :=
  setSelectedClip (some 2)
    (handleSeek 0 0
      (applyTrimStart 2 (-1000)
        (applyMoveClip 2 (-1000)
          (handleSliceClip (setSelectedClip (some 0) (handleSeek 0 1 (importFile 2 initState)))))))

/-- Reachable state whose transport position exceeds the recomputed
GlobalDuration: import 1s, seek to 1s, trim the clip end down to 0.5s. -/
def c5State : AppState :=
  applyTrimEnd 0 (-(1/2)) (handleSeek 0 1 (importFile 1 initState))

/-- Stopped state with one 2s clip and the transport at 1s, used to exercise
the mid-clip scheduling arithmetic of `playAudio`. -/
def c3State : AppState := handleSeek 0 1 (importFile 2 initState)

/-- Playing state with one 1s clip sounding, used for the delete ordering
claims. -/
def c4State : AppState := playAudio 0 (importFile 1 initState)

/-- Playing state with one 2s clip sounding from position 0, used for the
seek-while-playing claim. -/
def c7State : AppState := playAudio 0 (importFile 2 initState)

/-- Clip created by importing a 1s file into the empty editor. -/
def c2wClip : AudioClip :=
  { id := 0, sourceId := 0, trackId := 1, startTime := 0, offset := 0,
    duration := 1, gain := 1 }

/-- Track holding `c2wClip`. -/
def c2wTrack : Track := Track.mk 1 [c2wClip]

/-- State with `c2wClip` selected and the transport at 0.5s, about to slice. -/
def c2wState : AppState :=
  setSelectedClip (some 0) (handleSeek 0 (1/2) (importFile 1 initState))

/-- The single clip of `c3State`. -/
def c3Clip : AudioClip :=
  { id := 0, sourceId := 0, trackId := 1, startTime := 0, offset := 0,
    duration := 2, gain := 1 }

/-- The single track of `c3State`. -/
def c3Track : Track := { id := 1, clips := [c3Clip] }

/-- Little-endian 16-bit read at byte index `i`. -/
def readU16le (bytes : List ℕ) (i : ℕ) : ℕ :=
  bytes.getD i 0 + 256 * bytes.getD (i+1) 0

/-- Little-endian 32-bit read at byte index `i`. -/
def readU32le (bytes : List ℕ) (i : ℕ) : ℕ :=
  bytes.getD i 0 + 256 * bytes.getD (i+1) 0 + 65536 * bytes.getD (i+2) 0 +
    16777216 * bytes.getD (i+3) 0

/-! ## Structural preservation lemmas -/

theorem playAudio_tracks (now : ℚ) (s : AppState) : (playAudio now s).tracks = s.tracks := by
  unfold playAudio; split <;> rfl

theorem playAudio_globalDuration (now : ℚ) (s : AppState) :
    (playAudio now s).globalDuration = s.globalDuration := by
  unfold playAudio; split <;> rfl

theorem playAudio_clipboard (now : ℚ) (s : AppState) :
    (playAudio now s).clipboard = s.clipboard := by
  unfold playAudio; split <;> rfl

theorem playAudio_startOffset (now : ℚ) (s : AppState) :
    (playAudio now s).startOffset = s.startOffset := by
  unfold playAudio; split <;> rfl

theorem playAudio_currentTime (now : ℚ) (s : AppState) :
    (playAudio now s).currentTime = s.currentTime := by
  unfold playAudio; split <;> rfl

theorem pauseAudio_tracks (now : ℚ) (s : AppState) : (pauseAudio now s).tracks = s.tracks := by
  unfold pauseAudio; split <;> rfl

theorem pauseAudio_globalDuration (now : ℚ) (s : AppState) :
    (pauseAudio now s).globalDuration = s.globalDuration := by
  unfold pauseAudio; split <;> rfl

theorem pauseAudio_clipboard (now : ℚ) (s : AppState) :
    (pauseAudio now s).clipboard = s.clipboard := by
  unfold pauseAudio; split <;> rfl

theorem animate_tracks (now : ℚ) (s : AppState) : (animate now s).tracks = s.tracks := by
  by_cases hp : s.isPlaying = true <;>
    by_cases he : s.globalDuration ≤ s.startOffset + (now - s.startClockTime) <;>
      simp [animate, hp, he, pauseAudio_tracks]

theorem animate_globalDuration (now : ℚ) (s : AppState) :
    (animate now s).globalDuration = s.globalDuration := by
  by_cases hp : s.isPlaying = true <;>
    by_cases he : s.globalDuration ≤ s.startOffset + (now - s.startClockTime) <;>
      simp [animate, hp, he, pauseAudio_globalDuration]

theorem animate_clipboard (now : ℚ) (s : AppState) :
    (animate now s).clipboard = s.clipboard := by
  by_cases hp : s.isPlaying = true <;>
    by_cases he : s.globalDuration ≤ s.startOffset + (now - s.startClockTime) <;>
      simp [animate, hp, he, pauseAudio_clipboard]

theorem handleSeek_tracks (now t : ℚ) (s : AppState) : (handleSeek now t s).tracks = s.tracks := by
  by_cases hp : s.isPlaying = true <;> simp [handleSeek, hp, pauseAudio_tracks]

theorem handleSeek_globalDuration (now t : ℚ) (s : AppState) :
    (handleSeek now t s).globalDuration = s.globalDuration := by
  by_cases hp : s.isPlaying = true <;> simp [handleSeek, hp, pauseAudio_globalDuration]

theorem handleSeek_clipboard (now t : ℚ) (s : AppState) :
    (handleSeek now t s).clipboard = s.clipboard := by
  by_cases hp : s.isPlaying = true <;> simp [handleSeek, hp, pauseAudio_clipboard]

/-! ## C10: deleteTrack resets the transport, deleteClip leaves it alone -/

/-- C10: `handleDeleteTrack` always resets both transport position fields
(`startOffsetRef` and the displayed `currentTime`) to 0, in every state,
whereas `handleDeleteClip` leaves both unchanged. -/
theorem deleteTrack_resets_deleteClip_preserves_transport
    (s : AppState) (now : ℚ) (tid cid : ℕ) :
    (handleDeleteTrack now tid s).startOffset = 0 ∧
    (handleDeleteTrack now tid s).currentTime = 0 ∧
    (handleDeleteClip cid s).startOffset = s.startOffset ∧
    (handleDeleteClip cid s).currentTime = s.currentTime :=
  ⟨rfl, rfl, rfl, rfl⟩

/-! ## C8: trimStart clamping -/

/-- C8 (amended): `trimStart` computes
`actualDTime = max(-offset, min(dTime, duration - MIN_CLIP_LEN))` and applies
it to startTime/offset/duration.  The result always satisfies `offset ≥ 0`;
it satisfies `duration ≥ MIN_CLIP_LEN` whenever `offset + duration ≥
MIN_CLIP_LEN` (in particular for every clip that already had `duration ≥
MIN_CLIP_LEN`); and `trimStart` with `dTime = -1000` on a clip with
`offset = 0` leaves `offset = 0`. -/
theorem trimStart_clamps (c : AudioClip) (dTime : ℚ) :
    0 ≤ (trimStart c dTime).offset ∧
    (1/10 ≤ c.offset + c.duration → 1/10 ≤ (trimStart c dTime).duration) ∧
    (c.offset = 0 → (trimStart c (-1000)).offset = 0) := by
  refine ⟨?_, ?_, ?_⟩
  · have h := le_max_left (-c.offset) (min dTime (c.duration - 1/10))
    show 0 ≤ c.offset + max (-c.offset) (min dTime (c.duration - 1/10))
    linarith
  · intro h
    show 1/10 ≤ c.duration - max (-c.offset) (min dTime (c.duration - 1/10))
    have h1 : min dTime (c.duration - 1/10) ≤ c.duration - 1/10 := min_le_right _ _
    have h2 : -c.offset ≤ c.duration - 1/10 := by linarith
    have h3 := max_le h2 h1
    linarith
  · intro h
    show c.offset + max (-c.offset) (min (-1000) (c.duration - 1/10)) = 0
    have hmin : min (-1000 : ℚ) (c.duration - 1/10) ≤ 0 :=
      le_trans (min_le_left _ _) (by norm_num)
    rw [h, neg_zero, max_eq_left hmin, add_zero]

/-- C8 witness: a 1s clip with `offset = 0` trimmed by `dTime = -1000` keeps
`offset = 0` and `duration ≥ 0.1`. -/
theorem trimStart_clamps_witness :
    0 ≤ (trimStart ⟨0, 0, 0, 0, 0, 1, 1⟩ (-1000)).offset ∧
    (1 : ℚ)/10 ≤ (trimStart ⟨0, 0, 0, 0, 0, 1, 1⟩ (-1000)).duration ∧
    (trimStart ⟨0, 0, 0, 0, 0, 1, 1⟩ (-1000)).offset = 0 := by
  have h := trimStart_clamps ⟨0, 0, 0, 0, 0, 1, 1⟩ (-1000)
  exact ⟨h.1, h.2.1 (by norm_num), h.2.2 rfl⟩

/-- C8 counterexample: on a clip of duration 1/20 (importable from a 0.05s
file, or producible by slicing), the result of `trimStart` has duration
1/20 < MIN_CLIP_LEN, refuting the unconditional guarantee
`duration ≥ MIN_CLIP_LEN`. -/
theorem trimStart_min_len_counterexample :
    (trimStart ⟨0, 0, 0, 0, 0, 1/20, 1⟩ 1).duration < 1/10 := by
  norm_num [trimStart]

/-! ## C6: end-of-timeline tick -/

/-- C6: on the `animate` tick at which the position
`startOffset + (now - startClockTime)` reaches or exceeds GlobalDuration, the
scheduler pauses and resets the transport position to 0 — it stops and
rewinds, it does not keep playing. -/
theorem animate_end_of_timeline (s : AppState) (now : ℚ)
    (hp : s.isPlaying = true)
    (hend : s.globalDuration ≤ s.startOffset + (now - s.startClockTime)) :
    (animate now s).isPlaying = false ∧ (animate now s).startOffset = 0 ∧
    (animate now s).currentTime = 0 := by
  simp [animate, pauseAudio, hp, hend]

/-- C6 witness: one clip with `startTime = 0, duration = 2`; `seek(2.0)` then
`play()` pauses and resets the position to 0 on the very next tick. -/
theorem animate_end_of_timeline_witness :
    (animate 0 (playAudio 0 (handleSeek 0 2 (importFile 2 initState)))).isPlaying = false ∧
    (animate 0 (playAudio 0 (handleSeek 0 2 (importFile 2 initState)))).startOffset = 0 ∧
    (animate 0 (playAudio 0 (handleSeek 0 2 (importFile 2 initState)))).currentTime = 0 :=
  animate_end_of_timeline _ 0
    (by norm_num [playAudio, handleSeek, importFile, initState, updateGlobalDuration])
    (by norm_num [playAudio, handleSeek, importFile, initState, updateGlobalDuration,
      startCommands, clipStartCmd])

/-! ## C4: delete ordering versus live handles -/

/-- C4: the stop-then-mutate ordering is violated by `handleDeleteClip`.
While one clip is sounding, deleting it removes it from the model without
stopping its source node: the removed clip's handle stays live (and the
transport stays in Playing).  `handleDeleteTrack`, by contrast, pauses (which
stops the clip's node) before mutating. -/
theorem deleteClip_leaves_live_handle :
    (handleDeleteClip 0 c4State).liveClips = [0] ∧
    allClips (handleDeleteClip 0 c4State) = [] ∧
    (handleDeleteClip 0 c4State).isPlaying = true ∧
    (handleDeleteTrack 0 1 c4State).liveClips = [] := by
  norm_num [c4State, handleDeleteClip, handleDeleteTrack, playAudio, importFile, initState,
    allClips, updateGlobalDuration, startCommands, clipStartCmd, pauseAudio, modelClipIds,
    List.filterMap_cons, List.filterMap_nil]

/-! ## C7: seek -/

/-- C7: the claimed seek semantics fail in the playing case.  `handleSeek`
does clamp the target and set the position fields (the resulting transport
position is the clamped `t`), but the final `playAudio()` call runs against
the stale captured `isPlaying = true` and early-returns: with one 2s clip
sounding, `seek(1)` at clock 1/2 leaves the transport paused
(`isPlaying = false`) with no live node (`liveClips = []`), even though the
audible set at the new position is non-empty (the clip would yield a start
command reading from buffer offset 1) — playback is not resumed and the
audible set is not recomputed, contrary to the claim's
"pause(), then set startOffset, then play()". -/
theorem handleSeek_no_resume :
    c7State.isPlaying = true ∧
    c7State.liveClips = [0] ∧
    (handleSeek (1/2) 1 c7State).startOffset = 1 ∧
    (handleSeek (1/2) 1 c7State).currentTime = 1 ∧
    transportPosition (1/2) (handleSeek (1/2) 1 c7State) = 1 ∧
    (handleSeek (1/2) 1 c7State).isPlaying = false ∧
    (handleSeek (1/2) 1 c7State).liveClips = [] ∧
    (startCommands (1/2) (handleSeek (1/2) 1 c7State)).map StartCmd.clipId = [0] := by
  norm_num [c7State, handleSeek, playAudio, pauseAudio, importFile, initState,
    updateGlobalDuration, startCommands, clipStartCmd, transportPosition,
    modelClipIds, allClips, List.filterMap_cons, List.filterMap_nil]

/-! ## C9: WAV container -/

theorem length_flatMap_const {α β : Type} (l : List α) (f : α → List β) (k : ℕ)
    (h : ∀ a, (f a).length = k) : (l.flatMap f).length = l.length * k := by
  induction l with
  | nil => simp
  | cons a tl ih =>
    simp only [List.flatMap_cons, List.length_append, List.length_cons, h, ih]
    ring

/-- C9: the WAV serializer produces a 44-byte header followed by
`frames × channels × 2` data bytes; the format-tag field (byte offset 20,
little endian) is 1 and the declared dataSize field (byte offset 40, little
endian) is exactly `frames × channels × 2`. -/
theorem wavHeaderBytes_length (numChannels numSamples sampleRate : ℕ) :
    (wavHeaderBytes numChannels numSamples sampleRate).length = 44 := rfl

theorem wavDataBytes_length (numChannels numSamples : ℕ) (channels : List (List ℚ)) :
    (wavDataBytes numChannels numSamples channels).length
      = numSamples * numChannels * 2 := by
  unfold wavDataBytes
  rw [length_flatMap_const _
    (fun i => (List.range numChannels).flatMap (fun c =>
      int16le (sampleToInt16 ((channels.getD c []).getD i 0)))) (numChannels * 2)]
  · rw [List.length_range, ← Nat.mul_assoc]
  · intro i
    rw [length_flatMap_const _
      (fun c => int16le (sampleToInt16 ((channels.getD c []).getD i 0))) 2 (fun a => rfl)]
    rw [List.length_range]

theorem readU16le_append_left (l l' : List ℕ) (i : ℕ) (h : i + 1 < l.length) :
    readU16le (l ++ l') i = readU16le l i := by
  unfold readU16le
  rw [List.getD_append _ _ _ _ (by omega), List.getD_append _ _ _ _ h]

theorem readU32le_append_left (l l' : List ℕ) (i : ℕ) (h : i + 3 < l.length) :
    readU32le (l ++ l') i = readU32le l i := by
  unfold readU32le
  rw [List.getD_append _ _ _ _ (by omega), List.getD_append _ _ _ _ (by omega),
    List.getD_append _ _ _ _ (by omega), List.getD_append _ _ _ _ h]

set_option maxHeartbeats 1600000 in
/-- C9: the WAV serializer produces a 44-byte header followed by
`frames × channels × 2` data bytes; the format-tag field (byte offset 20,
little endian) is 1 and the declared dataSize field (byte offset 40, little
endian) is exactly `frames × channels × 2`. -/
theorem bufferToWav_spec (numChannels numSamples sampleRate : ℕ) (channels : List (List ℚ))
    (hsize : numSamples * numChannels * 2 < 4294967296) :
    (bufferToWav numChannels numSamples sampleRate channels).length
      = 44 + numSamples * numChannels * 2 ∧
    readU16le (bufferToWav numChannels numSamples sampleRate channels) 20 = 1 ∧
    readU32le (bufferToWav numChannels numSamples sampleRate channels) 40
      = numSamples * numChannels * 2 := by
  refine ⟨?_, ?_, ?_⟩
  · rw [bufferToWav, List.length_append, wavHeaderBytes_length, wavDataBytes_length]
  · rw [bufferToWav, readU16le_append_left _ _ _ (by rw [wavHeaderBytes_length]; omega)]
    rfl
  · rw [bufferToWav, readU32le_append_left _ _ _ (by rw [wavHeaderBytes_length]; omega)]
    show (numSamples * numChannels * 2 + 44 - 44) % 256 +
        256 * ((numSamples * numChannels * 2 + 44 - 44) / 256 % 256) +
        65536 * ((numSamples * numChannels * 2 + 44 - 44) / 65536 % 256) +
        16777216 * ((numSamples * numChannels * 2 + 44 - 44) / 16777216 % 256)
      = numSamples * numChannels * 2
    generalize hn : numSamples * numChannels * 2 = n at hsize ⊢
    omega

/-- C9 witness: a 3-frame stereo buffer yields a 56-byte WAV with format tag 1
and declared dataSize `3 * 2 * 2 = 12`. -/
theorem bufferToWav_spec_witness :
    (bufferToWav 2 3 8 [[1, 0, 1/2], [0, -1, 0]]).length = 44 + 3 * 2 * 2 ∧
    readU16le (bufferToWav 2 3 8 [[1, 0, 1/2], [0, -1, 0]]) 20 = 1 ∧
    readU32le (bufferToWav 2 3 8 [[1, 0, 1/2], [0, -1, 0]]) 40 = 3 * 2 * 2 :=
  bufferToWav_spec 2 3 8 [[1, 0, 1/2], [0, -1, 0]] (by norm_num)

/-! ## C3: play scheduling -/

theorem startCommands_readDuration_pos (now : ℚ) (s : AppState) :
    ∀ cmd ∈ startCommands now s, 0 < cmd.readDuration := by
  intro cmd hcmd
  rw [startCommands, List.mem_flatMap] at hcmd
  obtain ⟨track, htrack, hmem⟩ := hcmd
  rw [List.mem_filterMap] at hmem
  obtain ⟨clip, hclip, heq⟩ := hmem
  simp only [clipStartCmd] at heq
  split at heq
  · split at heq
    · split at heq
      · cases heq
        assumption
      · cases heq
    · cases heq
  · cases heq

/-- C3: `playAudio` is a no-op when already playing or with zero tracks;
otherwise it records `startClockTime = now`, transitions to Playing, and
issues one backend start command per clip (routed with the clip's gain into
the clip's track) with `when = now + max(0, startTime - startOffset)`,
`readOffset = offset + max(0, startOffset - startTime)` and
`readDuration = duration - max(0, startOffset - startTime)`, exactly for the
clips whose interval `[startTime, startTime + duration)` overlaps
`[startOffset, globalDuration)`, and within those if and only if
`readDuration > 0`. -/
theorem playAudio_schedules (s : AppState) (now : ℚ) :
    (s.isPlaying = true ∨ s.tracks = [] → playAudio now s = s) ∧
    (s.isPlaying = false → s.tracks ≠ [] →
      (playAudio now s).isPlaying = true ∧
      (playAudio now s).startClockTime = now ∧
      (playAudio now s).startOffset = s.startOffset ∧
      (playAudio now s).liveClips
        = s.liveClips ++ (startCommands now s).map StartCmd.clipId) ∧
    (∀ track ∈ s.tracks, ∀ clip ∈ track.clips, clip.sourceId < s.soundSources.length →
      ((s.startOffset < clip.startTime + clip.duration ∧ clip.startTime < s.globalDuration) →
        (({ clipId := clip.id, trackId := track.id, sourceId := clip.sourceId,
            whenTime := now + max 0 (clip.startTime - s.startOffset),
            readOffset := clip.offset + max 0 (s.startOffset - clip.startTime),
            readDuration := clip.duration - max 0 (s.startOffset - clip.startTime),
            clipGain := clip.gain } : StartCmd) ∈ startCommands now s
          ↔ 0 < clip.duration - max 0 (s.startOffset - clip.startTime))) ∧
      ((¬ (s.startOffset < clip.startTime + clip.duration ∧ clip.startTime < s.globalDuration)) →
        clipStartCmd s.soundSources.length s.globalDuration s.startOffset now track.id clip
          = none)) := by
  refine ⟨?_, ?_, ?_⟩
  · rintro (hp | ht)
    · simp [playAudio, hp]
    · simp [playAudio, ht]
  · intro hp ht
    have hcond : (s.isPlaying || s.tracks.isEmpty) = false := by
      cases htr : s.tracks with
      | nil => exact absurd htr ht
      | cons a l => rw [hp]; rfl
    refine ⟨?_, ?_, ?_, ?_⟩ <;> simp [playAudio, hcond]
  · intro track htrack clip hclip hsrc
    constructor
    · intro hover
      constructor
      · intro hmem
        simpa using startCommands_readDuration_pos now s _ hmem
      · intro hd
        rw [startCommands, List.mem_flatMap]
        refine ⟨track, htrack, ?_⟩
        rw [List.mem_filterMap]
        refine ⟨clip, hclip, ?_⟩
        simp only [clipStartCmd]
        rw [if_pos hover, if_pos hsrc, if_pos hd]
    · intro hnover
      simp only [clipStartCmd]
      rw [if_neg hnover]

/-- C3 witness: one 2s clip with the transport stopped at 1s; `play()` at
clock 0 transitions to Playing, records the clock, and schedules the clip at
`when = 0` reading 1s from buffer offset 1. -/
theorem playAudio_schedules_witness :
    (playAudio 0 c3State).isPlaying = true ∧
    (playAudio 0 c3State).startClockTime = 0 ∧
    ({ clipId := 0, trackId := 1, sourceId := 0, whenTime := 0, readOffset := 1,
       readDuration := 1, clipGain := 1 } : StartCmd) ∈ startCommands 0 c3State := by
  have h := playAudio_schedules c3State 0
  have hp : c3State.isPlaying = false := by
    norm_num [c3State, handleSeek, importFile, initState]
  have htracks : c3State.tracks = [c3Track] := by
    norm_num [c3State, handleSeek, importFile, initState, c3Track, c3Clip]
  have hso : c3State.startOffset = 1 := by
    norm_num [c3State, handleSeek, importFile, initState, updateGlobalDuration]
  have h2 := h.2.1 hp (by rw [htracks]; exact fun hh => by cases hh)
  have htr : c3Track ∈ c3State.tracks := by
    rw [htracks]; exact List.mem_singleton.mpr rfl
  have hcl : c3Clip ∈ c3Track.clips := by simp [c3Track]
  have h3 := (h.2.2 _ htr _ hcl
    (by norm_num [c3Clip, c3State, handleSeek, importFile, initState])).1
    (by constructor <;>
      norm_num [c3Clip, c3State, handleSeek, importFile, initState, updateGlobalDuration])
  rw [hso] at h3
  simp only [c3Clip, c3Track] at h3
  norm_num at h3
  exact ⟨h2.1, h2.2.1, h3⟩

/-! ## C2: slice exactness -/

theorem trySliceClips_none_of_not_mem (t : ℚ) (newId cid : ℕ) (clips : List AudioClip)
    (h : ∀ x ∈ clips, x.id ≠ cid) : trySliceClips t newId cid clips = none := by
  induction clips with
  | nil => rfl
  | cons c rest ih =>
    have hc : (c.id == cid) = false := by
      simp [h c (List.mem_cons_self c rest)]
    simp [trySliceClips, hc, ih (fun x hx => h x (List.mem_cons_of_mem _ hx))]

theorem trySliceClips_found (t : ℚ) (newId cid : ℕ) (cpre cpost : List AudioClip)
    (c : AudioClip) (hcpre : ∀ x ∈ cpre, x.id ≠ cid) (hc : c.id = cid)
    (hm : 1/100 < t - c.startTime ∧ t - c.startTime < c.duration - 1/100) :
    trySliceClips t newId cid (cpre ++ c :: cpost)
      = some (cpre ++ sliceFirst c t :: sliceSecond newId c t :: cpost) := by
  induction cpre with
  | nil =>
    simp only [List.nil_append, trySliceClips]
    rw [if_pos (by simp [hc]), if_pos hm]
  | cons x rest ih =>
    have hx : (x.id == cid) = false := by
      simp [hcpre x (List.mem_cons_self x rest)]
    simp [trySliceClips, hx, ih (fun y hy => hcpre y (List.mem_cons_of_mem _ hy))]

theorem trySliceClips_found_nomargin (t : ℚ) (newId cid : ℕ)
    (cpre cpost : List AudioClip) (c : AudioClip)
    (hcpre : ∀ x ∈ cpre, x.id ≠ cid) (hc : c.id = cid)
    (hnm : ¬(1/100 < t - c.startTime ∧ t - c.startTime < c.duration - 1/100)) :
    trySliceClips t newId cid (cpre ++ c :: cpost) = none := by
  induction cpre with
  | nil =>
    simp only [List.nil_append, trySliceClips]
    rw [if_pos (by simp [hc]), if_neg hnm]
  | cons x rest ih =>
    have hx : (x.id == cid) = false := by
      simp [hcpre x (List.mem_cons_self x rest)]
    simp [trySliceClips, hx, ih (fun y hy => hcpre y (List.mem_cons_of_mem _ hy))]

theorem sliceTracks_skip (t : ℚ) (newId cid : ℕ) (pre rest : List Track)
    (hpre : ∀ tr ∈ pre, trySliceClips t newId cid tr.clips = none) :
    sliceTracks t newId cid (pre ++ rest)
      = (pre ++ (sliceTracks t newId cid rest).1, (sliceTracks t newId cid rest).2) := by
  induction pre with
  | nil => simp
  | cons tr pre ih =>
    simp only [List.cons_append, sliceTracks, hpre tr (List.mem_cons_self _ _),
      List.append_eq]
    rw [ih (fun x hx => hpre x (List.mem_cons_of_mem _ hx))]

/-- C2 (amended): when a clip is selected, the transport time `t =
currentTime` is positive, and `t` lies strictly inside the clip with 0.01s
margin from both edges, `handleSliceClip` replaces the clip in place by two
clips with `first.duration + second.duration = original.duration` and
`second.offset = first.offset + first.duration`; the first keeps the original
startTime and offset, the second gets the fresh id and `startTime = t`.
Outside the margin bounds (with the clip id unique) the clip lists are left
unchanged.  The positivity guard is the code's `currentTime <= 0` early
return; at `t = 0` the operation is a no-op even when the margin bounds hold
(see the counterexample). -/
theorem handleSliceClip_exact (s : AppState) (cid : ℕ) (pre post : List Track)
    (tr : Track) (cpre cpost : List AudioClip) (c : AudioClip)
    (hsel : s.selectedClipId = some cid)
    (hpos : 0 < s.currentTime)
    (htracks : s.tracks = pre ++ tr :: post)
    (hpre : ∀ t ∈ pre, ∀ x ∈ t.clips, x.id ≠ cid)
    (hclips : tr.clips = cpre ++ c :: cpost)
    (hcpre : ∀ x ∈ cpre, x.id ≠ cid)
    (hcid : c.id = cid) :
    ((1/100 < s.currentTime - c.startTime ∧
        s.currentTime - c.startTime < c.duration - 1/100) →
      (handleSliceClip s).tracks =
        pre ++ Track.mk tr.id
          (cpre ++ sliceFirst c s.currentTime ::
            sliceSecond s.nextId c s.currentTime :: cpost) :: post ∧
      (sliceFirst c s.currentTime).duration +
          (sliceSecond s.nextId c s.currentTime).duration = c.duration ∧
      (sliceSecond s.nextId c s.currentTime).offset =
          (sliceFirst c s.currentTime).offset + (sliceFirst c s.currentTime).duration ∧
      (sliceFirst c s.currentTime).startTime = c.startTime ∧
      (sliceFirst c s.currentTime).offset = c.offset ∧
      (sliceFirst c s.currentTime).id = c.id ∧
      (sliceSecond s.nextId c s.currentTime).startTime = s.currentTime ∧
      (sliceSecond s.nextId c s.currentTime).id = s.nextId) ∧
    ((¬ (1/100 < s.currentTime - c.startTime ∧
        s.currentTime - c.startTime < c.duration - 1/100)) →
      (∀ t ∈ post, ∀ x ∈ t.clips, x.id ≠ cid) →
      (handleSliceClip s).tracks = s.tracks) := by
  constructor
  · intro hm
    have hslice : sliceTracks s.currentTime s.nextId cid s.tracks =
        (pre ++ Track.mk tr.id
          (cpre ++ sliceFirst c s.currentTime ::
            sliceSecond s.nextId c s.currentTime :: cpost) :: post, true) := by
      rw [htracks, sliceTracks_skip _ _ _ pre (tr :: post)
        (fun t ht => trySliceClips_none_of_not_mem _ _ _ _ (hpre t ht))]
      simp only [sliceTracks]
      rw [hclips, trySliceClips_found _ _ _ _ _ _ hcpre hcid hm]
    have hres : handleSliceClip s = { s with
        tracks := pre ++ Track.mk tr.id
          (cpre ++ sliceFirst c s.currentTime ::
            sliceSecond s.nextId c s.currentTime :: cpost) :: post,
        globalDuration := updateGlobalDuration (pre ++ Track.mk tr.id
          (cpre ++ sliceFirst c s.currentTime ::
            sliceSecond s.nextId c s.currentTime :: cpost) :: post),
        nextId := s.nextId + 1,
        selectedClipId := none } := by
      simp only [handleSliceClip, hsel]
      rw [if_neg (not_le.mpr hpos)]
      rw [hslice]
      rfl
    refine ⟨by rw [hres], ?_, ?_, rfl, rfl, rfl, ?_, rfl⟩
    · show (s.currentTime - c.startTime) + (c.duration - (s.currentTime - c.startTime))
        = c.duration
      ring
    · show c.offset + (s.currentTime - c.startTime)
        = c.offset + (s.currentTime - c.startTime)
      rfl
    · show c.startTime + (s.currentTime - c.startTime) = s.currentTime
      ring
  · intro hnm hpost
    have hslice : sliceTracks s.currentTime s.nextId cid s.tracks =
        (s.tracks, false) := by
      conv at htracks => rw [← List.append_nil (pre ++ tr :: post)]
      rw [htracks, sliceTracks_skip _ _ _ (pre ++ tr :: post) []]
      · simp [sliceTracks]
      · intro t ht
        rcases List.mem_append.mp ht with hl | hr
        · exact trySliceClips_none_of_not_mem _ _ _ _ (hpre t hl)
        · rcases List.mem_cons.mp hr with hhd | htl
          · subst hhd
            rw [hclips]
            exact trySliceClips_found_nomargin _ _ _ _ _ _ hcpre hcid hnm
          · exact trySliceClips_none_of_not_mem _ _ _ _ (hpost t htl)
    simp only [handleSliceClip, hsel]
    rw [if_neg (not_le.mpr hpos)]
    rw [hslice]

/-- C2 witness: slicing a 1s clip at transport time 0.5 replaces it by two
clips of duration 0.5 each, the second starting at 0.5 with buffer offset 0.5
and the fresh id, and the durations add up to the original. -/
theorem handleSliceClip_exact_witness :
    (handleSliceClip c2wState).tracks =
      [Track.mk 1 [AudioClip.mk 0 0 1 0 0 (1/2) 1, AudioClip.mk 2 0 1 (1/2) (1/2) (1/2) 1]] ∧
    (sliceFirst c2wClip c2wState.currentTime).duration +
      (sliceSecond c2wState.nextId c2wClip c2wState.currentTime).duration = 1 := by
  have h := (handleSliceClip_exact c2wState 0 [] [] c2wTrack [] [] c2wClip
    rfl
    (by norm_num [c2wState, setSelectedClip, handleSeek, importFile, initState,
      updateGlobalDuration])
    (by norm_num [c2wState, setSelectedClip, handleSeek, importFile, initState,
      c2wTrack, c2wClip])
    (by simp)
    (by simp [c2wTrack])
    (by simp)
    rfl).1
    (by norm_num [c2wState, c2wClip, setSelectedClip, handleSeek, importFile, initState,
      updateGlobalDuration])
  refine ⟨?_, h.2.1⟩
  rw [h.1]
  norm_num [c2wTrack, c2wClip, c2wState, setSelectedClip, handleSeek, importFile,
    initState, sliceFirst, sliceSecond, updateGlobalDuration]

/-- C2 counterexample: `c2State` is reachable, its selected clip has
`startTime = -1` and `duration = 2`, and the transport time 0 lies strictly
inside that clip with more than 0.01s margin from both edges; the claim then
requires a slice, but `handleSliceClip` is a complete no-op because of the
`currentTime <= 0` early return. -/
theorem handleSliceClip_counterexample :
    Reachable c2State ∧
    c2State.selectedClipId = some 2 ∧
    findClip c2State 2 = some (AudioClip.mk 2 0 1 (-1) 0 2 1) ∧
    1/100 < c2State.currentTime - (-1 : ℚ) ∧
    c2State.currentTime - (-1 : ℚ) < 2 - 1/100 ∧
    handleSliceClip c2State = c2State := by
  constructor
  · exact Reachable.ofSelect _ (Reachable.ofSeek _ _ (Reachable.ofTrimStart _ _
      (Reachable.ofMove _ _ (Reachable.ofSlice (Reachable.ofSelect _
      (Reachable.ofSeek _ _ (Reachable.ofImport 2 (by norm_num) Reachable.init)))))))
  · norm_num [c2State, setSelectedClip, handleSeek, applyTrimStart, applyMoveClip,
      findClip, allClips, handleUpdateClip, trimStart, moveClip, handleSliceClip,
      sliceTracks, trySliceClips, sliceFirst, sliceSecond, importFile, initState,
      updateGlobalDuration]

/-! ## Clip invariant machinery (C1, C5) -/

theorem findClip_mem {s : AppState} {cid : ℕ} {c : AudioClip}
    (h : findClip s cid = some c) : c ∈ allClips s :=
  List.mem_of_find?_eq_some h

theorem mem_allClips_handleUpdateClip {uc c : AudioClip} {s : AppState}
    (h : c ∈ allClips (handleUpdateClip uc s)) : c = uc ∨ c ∈ allClips s := by
  simp only [allClips, handleUpdateClip, List.mem_flatMap, List.mem_map] at h
  obtain ⟨tr, ⟨tr0, htr0, heq⟩, hc⟩ := h
  subst heq
  by_cases hid : (tr0.id == uc.trackId) = true
  · rw [if_pos hid] at hc
    simp only [List.mem_map] at hc
    obtain ⟨c0, hc0, heqc⟩ := hc
    by_cases hcid : (c0.id == uc.id) = true
    · rw [if_pos hcid] at heqc
      exact Or.inl heqc.symm
    · rw [if_neg hcid] at heqc
      subst heqc
      exact Or.inr (by
        simp only [allClips, List.mem_flatMap]
        exact ⟨tr0, htr0, hc0⟩)
  · rw [if_neg hid] at hc
    exact Or.inr (by
      simp only [allClips, List.mem_flatMap]
      exact ⟨tr0, htr0, hc⟩)

theorem trySliceClips_mem {t : ℚ} {nid cid : ℕ} {clips cs : List AudioClip}
    {x : AudioClip} (h : trySliceClips t nid cid clips = some cs) (hx : x ∈ cs) :
    x ∈ clips ∨ ∃ c ∈ clips,
      (1/100 < t - c.startTime ∧ t - c.startTime < c.duration - 1/100) ∧
      (x = sliceFirst c t ∨ x = sliceSecond nid c t) := by
  induction clips generalizing cs with
  | nil => cases h
  | cons c0 rest ih =>
    simp only [trySliceClips] at h
    by_cases hc0 : (c0.id == cid) = true
    · rw [if_pos hc0] at h
      by_cases hm : 1/100 < t - c0.startTime ∧ t - c0.startTime < c0.duration - 1/100
      · rw [if_pos hm] at h
        cases h
        rcases List.mem_cons.mp hx with rfl | hx2
        · exact Or.inr ⟨c0, List.mem_cons_self _ _, hm, Or.inl rfl⟩
        · rcases List.mem_cons.mp hx2 with rfl | hx3
          · exact Or.inr ⟨c0, List.mem_cons_self _ _, hm, Or.inr rfl⟩
          · exact Or.inl (List.mem_cons_of_mem _ hx3)
      · rw [if_neg hm] at h
        cases h
    · rw [if_neg hc0] at h
      cases hrec : trySliceClips t nid cid rest with
      | none => rw [hrec] at h; cases h
      | some cs0 =>
        rw [hrec] at h
        cases h
        rcases List.mem_cons.mp hx with rfl | hx2
        · exact Or.inl (List.mem_cons_self _ _)
        · rcases ih hrec hx2 with hm | ⟨c, hc, hmm, hxx⟩
          · exact Or.inl (List.mem_cons_of_mem _ hm)
          · exact Or.inr ⟨c, List.mem_cons_of_mem _ hc, hmm, hxx⟩

theorem sliceTracks_clips_mem {t : ℚ} {nid cid : ℕ} {tks : List Track}
    {x : AudioClip}
    (hx : x ∈ (sliceTracks t nid cid tks).1.flatMap Track.clips) :
    x ∈ tks.flatMap Track.clips ∨ ∃ c ∈ tks.flatMap Track.clips,
      (1/100 < t - c.startTime ∧ t - c.startTime < c.duration - 1/100) ∧
      (x = sliceFirst c t ∨ x = sliceSecond nid c t) := by
  induction tks with
  | nil => simp [sliceTracks] at hx
  | cons tr rest ih =>
    simp only [sliceTracks] at hx
    cases htry : trySliceClips t nid cid tr.clips with
    | some cs =>
      rw [htry] at hx
      have hx2 : x ∈ cs ∨ x ∈ rest.flatMap Track.clips := by simpa using hx
      rcases hx2 with hx3 | hx3
      · rcases trySliceClips_mem htry hx3 with hm | ⟨c, hc, hmm, hxx⟩
        · exact Or.inl (List.mem_append.mpr (Or.inl hm))
        · exact Or.inr ⟨c, List.mem_append.mpr (Or.inl hc), hmm, hxx⟩
      · exact Or.inl (List.mem_append.mpr (Or.inr hx3))
    | none =>
      rw [htry] at hx
      have hx2 : x ∈ tr.clips ∨
          x ∈ (sliceTracks t nid cid rest).1.flatMap Track.clips := by simpa using hx
      rcases hx2 with hx3 | hx3
      · exact Or.inl (List.mem_append.mpr (Or.inl hx3))
      · rcases ih hx3 with hm | ⟨c, hc, hmm, hxx⟩
        · exact Or.inl (List.mem_append.mpr (Or.inr hm))
        · exact Or.inr ⟨c, List.mem_append.mpr (Or.inr hc), hmm, hxx⟩

theorem sliceTracks_fst_of_not_found (t : ℚ) (nid cid : ℕ) (l : List Track)
    (h : (sliceTracks t nid cid l).2 = false) : (sliceTracks t nid cid l).1 = l := by
  induction l with
  | nil => rfl
  | cons tr rest ih =>
    simp only [sliceTracks] at h
    cases htry : trySliceClips t nid cid tr.clips with
    | some cs => rw [htry] at h; exact Bool.noConfusion h
    | none =>
      rw [htry] at h
      have h2 : (sliceTracks t nid cid rest).2 = false := h
      simp only [sliceTracks]
      rw [htry]
      show tr :: (sliceTracks t nid cid rest).1 = tr :: rest
      rw [ih h2]

theorem clipOK_moveClip {c : AudioClip} (h : ClipOK c) (dt : ℚ) :
    ClipOK (moveClip c dt) := h

theorem clipOK_trimStart {c : AudioClip} (h : ClipOK c) (dt : ℚ) :
    ClipOK (trimStart c dt) := by
  obtain ⟨ho, hd⟩ := h
  constructor
  · show 0 ≤ c.offset + max (-c.offset) (min dt (c.duration - 1/10))
    have := le_max_left (-c.offset) (min dt (c.duration - 1/10))
    linarith
  · show 0 < c.duration - max (-c.offset) (min dt (c.duration - 1/10))
    have h1 : max (-c.offset) (min dt (c.duration - 1/10))
        ≤ max (-c.offset) (c.duration - 1/10) :=
      max_le_max (le_refl _) (min_le_right _ _)
    have h2 : max (-c.offset) (c.duration - 1/10) < c.duration := by
      apply max_lt <;> linarith
    linarith

theorem clipOK_trimEnd {c : AudioClip} (h : ClipOK c) (srcDur dt : ℚ) :
    ClipOK (trimEnd srcDur c dt) := by
  obtain ⟨ho, hd⟩ := h
  refine ⟨ho, ?_⟩
  show 0 < c.duration + max (-(c.duration - 1/10)) (min dt (srcDur - c.offset - c.duration))
  have := le_max_left (-(c.duration - 1/10)) (min dt (srcDur - c.offset - c.duration))
  linarith

theorem clipOK_adjustGain {c : AudioClip} (h : ClipOK c) (dg : ℚ) :
    ClipOK (adjustGain c dg) := h

theorem clipOK_sliceFirst {c : AudioClip} {t : ℚ} (h : ClipOK c)
    (hm : 1/100 < t - c.startTime ∧ t - c.startTime < c.duration - 1/100) :
    ClipOK (sliceFirst c t) := by
  refine ⟨h.1, ?_⟩
  show 0 < t - c.startTime
  linarith [hm.1]

theorem clipOK_sliceSecond {c : AudioClip} {t : ℚ} {nid : ℕ} (h : ClipOK c)
    (hm : 1/100 < t - c.startTime ∧ t - c.startTime < c.duration - 1/100) :
    ClipOK (sliceSecond nid c t) := by
  constructor
  · show 0 ≤ c.offset + (t - c.startTime)
    linarith [h.1, hm.1]
  · show 0 < c.duration - (t - c.startTime)
    linarith [hm.2]

theorem stateOK_of_same {s s2 : AppState} (h : StateOK s) (ht : s2.tracks = s.tracks)
    (hc : s2.clipboard = s.clipboard) : StateOK s2 := by
  constructor
  · intro c hm
    apply h.1 c
    rw [allClips] at hm
    rw [ht] at hm
    exact hm
  · intro c hm
    apply h.2 c
    rw [← hc]
    exact hm

theorem stateOK_initState : StateOK initState := by
  constructor
  · intro c hc
    simp [allClips, initState] at hc
  · intro c hc
    simp [initState] at hc

theorem stateOK_importFile {s : AppState} {d : ℚ} (hd : 0 < d) (h : StateOK s) :
    StateOK (importFile d s) := by
  constructor
  · intro c hc
    rw [allClips, List.mem_flatMap] at hc
    obtain ⟨tr, htr, hctr⟩ := hc
    have htr2 : tr ∈ s.tracks ++ [Track.mk (s.nextId + 1)
        [AudioClip.mk s.nextId s.soundSources.length (s.nextId + 1) 0 0 d 1]] := htr
    rcases List.mem_append.mp htr2 with h1 | h1
    · exact h.1 c (by rw [allClips, List.mem_flatMap]; exact ⟨tr, h1, hctr⟩)
    · have heq := List.mem_singleton.mp h1
      subst heq
      have heqc := List.mem_singleton.mp hctr
      subst heqc
      exact ⟨le_refl 0, hd⟩
  · intro c hcb
    exact h.2 c hcb

theorem stateOK_handleUpdateClip {s : AppState} {uc : AudioClip}
    (h : StateOK s) (hc : ClipOK uc) : StateOK (handleUpdateClip uc s) := by
  constructor
  · intro c hcm
    rcases mem_allClips_handleUpdateClip hcm with rfl | hcm2
    · exact hc
    · exact h.1 c hcm2
  · intro c hcb
    exact h.2 c hcb

theorem stateOK_applyMoveClip {s : AppState} (h : StateOK s) (cid : ℕ) (dt : ℚ) :
    StateOK (applyMoveClip cid dt s) := by
  unfold applyMoveClip
  cases hf : findClip s cid with
  | none => exact h
  | some c => exact stateOK_handleUpdateClip h (clipOK_moveClip (h.1 c (findClip_mem hf)) dt)

theorem stateOK_applyTrimStart {s : AppState} (h : StateOK s) (cid : ℕ) (dt : ℚ) :
    StateOK (applyTrimStart cid dt s) := by
  unfold applyTrimStart
  cases hf : findClip s cid with
  | none => exact h
  | some c => exact stateOK_handleUpdateClip h (clipOK_trimStart (h.1 c (findClip_mem hf)) dt)

theorem stateOK_applyTrimEnd {s : AppState} (h : StateOK s) (cid : ℕ) (dt : ℚ) :
    StateOK (applyTrimEnd cid dt s) := by
  unfold applyTrimEnd
  cases hf : findClip s cid with
  | none => exact h
  | some c =>
    exact stateOK_handleUpdateClip h
      (clipOK_trimEnd (h.1 c (findClip_mem hf)) (s.soundSources.getD c.sourceId 0) dt)

theorem stateOK_applyAdjustGain {s : AppState} (h : StateOK s) (cid : ℕ) (dg : ℚ) :
    StateOK (applyAdjustGain cid dg s) := by
  unfold applyAdjustGain
  cases hf : findClip s cid with
  | none => exact h
  | some c => exact stateOK_handleUpdateClip h (clipOK_adjustGain (h.1 c (findClip_mem hf)) dg)

theorem stateOK_handleSliceClip {s : AppState} (h : StateOK s) :
    StateOK (handleSliceClip s) := by
  cases hsel : s.selectedClipId with
  | none =>
    simp only [handleSliceClip, hsel]
    exact h
  | some cid =>
    simp only [handleSliceClip, hsel]
    by_cases hct : s.currentTime ≤ 0
    · rw [if_pos hct]
      exact h
    · rw [if_neg hct]
      constructor
      · intro c hc
        have hc2 : c ∈ (sliceTracks s.currentTime s.nextId cid s.tracks).1.flatMap
            Track.clips := hc
        rcases sliceTracks_clips_mem hc2 with hmem | ⟨c0, hc0, hm, hx⟩
        · exact h.1 c hmem
        · rcases hx with rfl | rfl
          · exact clipOK_sliceFirst (h.1 c0 hc0) hm
          · exact clipOK_sliceSecond (h.1 c0 hc0) hm
      · intro c hcb
        exact h.2 c hcb

theorem mem_allClips_handleDeleteClip {cid : ℕ} {c : AudioClip} {s : AppState}
    (h : c ∈ allClips (handleDeleteClip cid s)) : c ∈ allClips s := by
  rw [allClips, List.mem_flatMap] at h
  obtain ⟨tr, htr, hc⟩ := h
  have htr2 : tr ∈ s.tracks.map (fun track =>
      if track.clips.any (fun c0 => c0.id == cid) then
        { track with clips := track.clips.filter (fun c0 => !(c0.id == cid)) }
      else track) := htr
  rw [List.mem_map] at htr2
  obtain ⟨tr0, htr0, heq⟩ := htr2
  subst heq
  rw [allClips, List.mem_flatMap]
  refine ⟨tr0, htr0, ?_⟩
  by_cases hany : tr0.clips.any (fun c0 => c0.id == cid) = true
  · rw [if_pos hany] at hc
    exact List.mem_of_mem_filter hc
  · rw [if_neg hany] at hc
    exact hc

theorem stateOK_handleDeleteClip {s : AppState} (h : StateOK s) (cid : ℕ) :
    StateOK (handleDeleteClip cid s) := by
  constructor
  · intro c hc
    exact h.1 c (mem_allClips_handleDeleteClip hc)
  · intro c hcb
    exact h.2 c hcb

theorem handleDeleteTrack_clipboard (now : ℚ) (tid : ℕ) (s : AppState) :
    (handleDeleteTrack now tid s).clipboard = s.clipboard := by
  unfold handleDeleteTrack
  by_cases hp : s.isPlaying = true <;> simp [hp, pauseAudio_clipboard]

theorem mem_allClips_handleDeleteTrack {now : ℚ} {tid : ℕ} {c : AudioClip}
    {s : AppState} (h : c ∈ allClips (handleDeleteTrack now tid s)) :
    c ∈ allClips s := by
  rw [allClips, List.mem_flatMap] at h
  obtain ⟨tr, htr, hc⟩ := h
  have htr2 : tr ∈ (if s.isPlaying = true then pauseAudio now s else s).tracks.filter
      (fun t => !(t.id == tid)) := htr
  have htr3 := List.mem_of_mem_filter htr2
  rw [allClips, List.mem_flatMap]
  by_cases hp : s.isPlaying = true
  · rw [if_pos hp, pauseAudio_tracks] at htr3
    exact ⟨tr, htr3, hc⟩
  · rw [if_neg hp] at htr3
    exact ⟨tr, htr3, hc⟩

theorem stateOK_handleDeleteTrack {s : AppState} (h : StateOK s) (now : ℚ) (tid : ℕ) :
    StateOK (handleDeleteTrack now tid s) := by
  constructor
  · intro c hc
    exact h.1 c (mem_allClips_handleDeleteTrack hc)
  · intro c hcb
    rw [handleDeleteTrack_clipboard] at hcb
    exact h.2 c hcb

theorem stateOK_handleCopy {s : AppState} (h : StateOK s) : StateOK (handleCopy s) := by
  cases hsel : s.selectedClipId with
  | none =>
    simp only [handleCopy, hsel]
    exact h
  | some cid =>
    cases hf : findClip s cid with
    | none => simp only [handleCopy, hsel, hf]; exact h
    | some c =>
      simp only [handleCopy, hsel, hf]
      constructor
      · intro c2 hc2
        exact h.1 c2 hc2
      · intro c2 hcb
        cases hcb
        exact h.1 c (findClip_mem hf)

theorem mem_flatMap_pushClipToTrack {tid : ℕ} {nc x : AudioClip} {l : List Track}
    (h : x ∈ (pushClipToTrack tid nc l).flatMap Track.clips) :
    x ∈ l.flatMap Track.clips ∨ x = nc := by
  induction l with
  | nil => simp [pushClipToTrack] at h
  | cons tr rest ih =>
    simp only [pushClipToTrack] at h
    by_cases hid : (tr.id == tid) = true
    · rw [if_pos hid] at h
      have h2 : x ∈ (tr.clips ++ [nc]) ++ rest.flatMap Track.clips := h
      rcases List.mem_append.mp h2 with h3 | h3
      · rcases List.mem_append.mp h3 with h4 | h4
        · exact Or.inl (List.mem_append.mpr (Or.inl h4))
        · exact Or.inr (List.mem_singleton.mp h4)
      · exact Or.inl (List.mem_append.mpr (Or.inr h3))
    · rw [if_neg hid] at h
      have h2 : x ∈ tr.clips ++ (pushClipToTrack tid nc rest).flatMap Track.clips := h
      rcases List.mem_append.mp h2 with h3 | h3
      · exact Or.inl (List.mem_append.mpr (Or.inl h3))
      · rcases ih h3 with h4 | h4
        · exact Or.inl (List.mem_append.mpr (Or.inr h4))
        · exact Or.inr h4

theorem stateOK_handlePaste {s : AppState} (h : StateOK s) : StateOK (handlePaste s) := by
  cases hcb : s.clipboard with
  | none =>
    simp only [handlePaste, hcb]
    exact h
  | some cb =>
    simp only [handlePaste, hcb]
    constructor
    · intro c hc
      have hc2 : c ∈ (pushClipToTrack cb.trackId
          { cb with id := s.nextId, startTime := s.currentTime } s.tracks).flatMap
          Track.clips := hc
      rcases mem_flatMap_pushClipToTrack hc2 with h1 | h1
      · exact h.1 c h1
      · subst h1
        exact h.2 cb hcb
    · intro c hcb2
      cases hcb2
      exact h.2 cb hcb

theorem reachable_stateOK (s : AppState) (h : Reachable s) : StateOK s := by
  induction h with
  | init => exact stateOK_initState
  | ofImport d hd h ih => exact stateOK_importFile hd ih
  | ofMove cid dt h ih => exact stateOK_applyMoveClip ih cid dt
  | ofTrimStart cid dt h ih => exact stateOK_applyTrimStart ih cid dt
  | ofTrimEnd cid dt h ih => exact stateOK_applyTrimEnd ih cid dt
  | ofAdjustGain cid dg h ih => exact stateOK_applyAdjustGain ih cid dg
  | ofSelect sel h ih => exact stateOK_of_same ih rfl rfl
  | ofSlice h ih => exact stateOK_handleSliceClip ih
  | ofCopy h ih => exact stateOK_handleCopy ih
  | ofPaste h ih => exact stateOK_handlePaste ih
  | ofDeleteClip cid h ih => exact stateOK_handleDeleteClip ih cid
  | ofDeleteTrack now tid h ih => exact stateOK_handleDeleteTrack ih now tid
  | ofPlay now h ih => exact stateOK_of_same ih (playAudio_tracks now _) (playAudio_clipboard now _)
  | ofPause now h ih => exact stateOK_of_same ih (pauseAudio_tracks now _) (pauseAudio_clipboard now _)
  | ofSeek now t h ih => exact stateOK_of_same ih (handleSeek_tracks now t _) (handleSeek_clipboard now t _)
  | ofTick now h ih => exact stateOK_of_same ih (animate_tracks now _) (animate_clipboard now _)

/-- C1 (amended): in every state reachable by any sequence of the public
operations, every clip satisfies `offset ≥ 0` and `duration > 0`.  The
stronger conjuncts of the claim — `duration ≥ MIN_CLIP_LEN`,
`offset + duration ≤ source duration` and `startTime ≥ 0` — do not hold in
all reachable states (see the counterexample: slicing only enforces the 0.01s
margins, so it creates clips shorter than MIN_CLIP_LEN, on which trimming can
then push `startTime` below 0 or `offset + duration` past the source end). -/
theorem reachable_clip_invariants (s : AppState) (h : Reachable s) :
    ∀ c ∈ allClips s, 0 ≤ c.offset ∧ 0 < c.duration :=
  fun c hc => (reachable_stateOK s h).1 c hc

/-- C1 witness: the clip produced by importing a 1s file into the empty
editor satisfies the invariant. -/
theorem reachable_clip_invariants_witness :
    0 ≤ (AudioClip.mk 0 0 1 0 0 1 1).offset ∧ 0 < (AudioClip.mk 0 0 1 0 0 1 1).duration :=
  reachable_clip_invariants (importFile 1 initState)
    (Reachable.ofImport 1 (by norm_num) Reachable.init)
    (AudioClip.mk 0 0 1 0 0 1 1)
    (by norm_num [allClips, importFile, initState])

/-- C1 counterexample: `c1State` is reachable (import a 1s file, seek to
0.05s, select the clip, slice) and contains a clip of duration
1/20 < MIN_CLIP_LEN = 1/10, refuting the claimed invariant
`duration ≥ MIN_CLIP_LEN`. -/
theorem clip_min_len_counterexample :
    Reachable c1State ∧
    (allClips c1State).map AudioClip.duration = [1/20, 19/20] ∧
    ¬ ((1 : ℚ)/10 ≤ 1/20) := by
  refine ⟨Reachable.ofSlice (Reachable.ofSelect _ (Reachable.ofSeek _ _
    (Reachable.ofImport 1 (by norm_num) Reachable.init))), ?_, by norm_num⟩
  norm_num [c1State, handleSliceClip, setSelectedClip, handleSeek, importFile,
    initState, updateGlobalDuration, sliceTracks, trySliceClips, sliceFirst,
    sliceSecond, allClips]

/-! ## C5: GlobalDuration recomputation -/

theorem gdInv_applyMoveClip (cid : ℕ) (dt : ℚ) (s : AppState)
    (ih : s.globalDuration = updateGlobalDuration s.tracks) :
    (applyMoveClip cid dt s).globalDuration
      = updateGlobalDuration (applyMoveClip cid dt s).tracks := by
  unfold applyMoveClip
  cases findClip s cid with
  | none => exact ih
  | some c => rfl

theorem gdInv_applyTrimStart (cid : ℕ) (dt : ℚ) (s : AppState)
    (ih : s.globalDuration = updateGlobalDuration s.tracks) :
    (applyTrimStart cid dt s).globalDuration
      = updateGlobalDuration (applyTrimStart cid dt s).tracks := by
  unfold applyTrimStart
  cases findClip s cid with
  | none => exact ih
  | some c => rfl

theorem gdInv_applyTrimEnd (cid : ℕ) (dt : ℚ) (s : AppState)
    (ih : s.globalDuration = updateGlobalDuration s.tracks) :
    (applyTrimEnd cid dt s).globalDuration
      = updateGlobalDuration (applyTrimEnd cid dt s).tracks := by
  unfold applyTrimEnd
  cases findClip s cid with
  | none => exact ih
  | some c => rfl

theorem gdInv_applyAdjustGain (cid : ℕ) (dg : ℚ) (s : AppState)
    (ih : s.globalDuration = updateGlobalDuration s.tracks) :
    (applyAdjustGain cid dg s).globalDuration
      = updateGlobalDuration (applyAdjustGain cid dg s).tracks := by
  unfold applyAdjustGain
  cases findClip s cid with
  | none => exact ih
  | some c => rfl

theorem gdInv_handleSliceClip (s : AppState)
    (ih : s.globalDuration = updateGlobalDuration s.tracks) :
    (handleSliceClip s).globalDuration
      = updateGlobalDuration (handleSliceClip s).tracks := by
  cases hsel : s.selectedClipId with
  | none => simp only [handleSliceClip, hsel]; exact ih
  | some cid =>
    simp only [handleSliceClip, hsel]
    by_cases hct : s.currentTime ≤ 0
    · rw [if_pos hct]
      exact ih
    · rw [if_neg hct]
      by_cases hr : (sliceTracks s.currentTime s.nextId cid s.tracks).2 = true
      · show (if (sliceTracks s.currentTime s.nextId cid s.tracks).2 = true then
            updateGlobalDuration (sliceTracks s.currentTime s.nextId cid s.tracks).1
          else s.globalDuration)
          = updateGlobalDuration (sliceTracks s.currentTime s.nextId cid s.tracks).1
        rw [if_pos hr]
      · show (if (sliceTracks s.currentTime s.nextId cid s.tracks).2 = true then
            updateGlobalDuration (sliceTracks s.currentTime s.nextId cid s.tracks).1
          else s.globalDuration)
          = updateGlobalDuration (sliceTracks s.currentTime s.nextId cid s.tracks).1
        have hr2 : (sliceTracks s.currentTime s.nextId cid s.tracks).2 = false := by
          cases h2 : (sliceTracks s.currentTime s.nextId cid s.tracks).2 with
          | true => exact absurd h2 hr
          | false => rfl
        rw [if_neg hr, ih, sliceTracks_fst_of_not_found _ _ _ _ hr2]

theorem gdInv_handleCopy (s : AppState)
    (ih : s.globalDuration = updateGlobalDuration s.tracks) :
    (handleCopy s).globalDuration = updateGlobalDuration (handleCopy s).tracks := by
  cases hsel : s.selectedClipId with
  | none => simp only [handleCopy, hsel]; exact ih
  | some cid =>
    cases hf : findClip s cid with
    | none => simp only [handleCopy, hsel, hf]; exact ih
    | some c => simp only [handleCopy, hsel, hf]; exact ih

theorem gdInv_handlePaste (s : AppState)
    (ih : s.globalDuration = updateGlobalDuration s.tracks) :
    (handlePaste s).globalDuration = updateGlobalDuration (handlePaste s).tracks := by
  cases hcb : s.clipboard with
  | none => simp only [handlePaste, hcb]; exact ih
  | some cb => simp only [handlePaste, hcb]

/-- C5 (amended): in every reachable state, GlobalDuration equals the
recomputed value `max(0, max over all clips of startTime + duration)` — every
structural edit refreshes it.  The transport-position clamping half of the
claim is refuted separately: no structural edit clamps `currentTime` or
`startOffset` into `[0, GlobalDuration]`. -/
theorem reachable_globalDuration (s : AppState) (h : Reachable s) :
    s.globalDuration = updateGlobalDuration s.tracks := by
  induction h with
  | init => rfl
  | ofImport d hd h ih => rfl
  | ofMove cid dt h ih => exact gdInv_applyMoveClip cid dt _ ih
  | ofTrimStart cid dt h ih => exact gdInv_applyTrimStart cid dt _ ih
  | ofTrimEnd cid dt h ih => exact gdInv_applyTrimEnd cid dt _ ih
  | ofAdjustGain cid dg h ih => exact gdInv_applyAdjustGain cid dg _ ih
  | ofSelect sel h ih => exact ih
  | ofSlice h ih => exact gdInv_handleSliceClip _ ih
  | ofCopy h ih => exact gdInv_handleCopy _ ih
  | ofPaste h ih => exact gdInv_handlePaste _ ih
  | ofDeleteClip cid h ih => rfl
  | ofDeleteTrack now tid h ih => rfl
  | ofPlay now h ih => rw [playAudio_globalDuration, playAudio_tracks]; exact ih
  | ofPause now h ih => rw [pauseAudio_globalDuration, pauseAudio_tracks]; exact ih
  | ofSeek now t h ih => rw [handleSeek_globalDuration, handleSeek_tracks]; exact ih
  | ofTick now h ih => rw [animate_globalDuration, animate_tracks]; exact ih

/-- C5 witness: after importing a 1s file, GlobalDuration equals the
recomputed maximum. -/
theorem reachable_globalDuration_witness :
    (importFile 1 initState).globalDuration
      = updateGlobalDuration (importFile 1 initState).tracks :=
  reachable_globalDuration (importFile 1 initState)
    (Reachable.ofImport 1 (by norm_num) Reachable.init)

/-- C5 counterexample: `c5State` (import 1s, seek to 1s, trim the clip end to
0.5s) is reachable, GlobalDuration is correctly recomputed to 1/2, but the
transport position stays at 1 — it is not clamped into `[0, GlobalDuration]`
as the claim requires. -/
theorem transport_clamp_counterexample :
    Reachable c5State ∧
    c5State.currentTime = 1 ∧
    c5State.startOffset = 1 ∧
    c5State.globalDuration = 1/2 ∧
    ¬ (c5State.currentTime ≤ c5State.globalDuration) := by
  refine ⟨Reachable.ofTrimEnd 0 (-(1/2)) (Reachable.ofSeek 0 1
    (Reachable.ofImport 1 (by norm_num) Reachable.init)), ?_⟩
  norm_num [c5State, applyTrimEnd, findClip, allClips, handleUpdateClip, trimEnd,
    handleSeek, importFile, initState, updateGlobalDuration]
